import Mathlib

/-!
Shallow embedding of the forecasting/simulation core of the SimuLad repository
(`simulation.py` and `alternative_models.py`), together with theorems settling
the specification claims about it.

Modelling conventions:
* pandas DataFrames become `Table`s: a `DateTime` column (integers, hours),
  a list of non-`DateTime` column names, and a list of rows of rationals
  (`1.8` is exactly `9/5` in ℚ, so the Celsius→Fahrenheit arithmetic is exact).
* pandas Series (a single row with named entries) become `Series`.
* Python exceptions become an explicit `PyErr` error type; fallible code
  returns `Except PyErr _`.  `numpy.linalg.LinAlgError` is `PyErr.linAlgError`,
  an out-of-bounds `iloc` access is `PyErr.indexError`, `ValueError(msg)` is
  `PyErr.valueError msg`.  Pandas index alignment between two differently
  indexed Series produces NaN-filled unions; NaNs are outside this
  rational-valued model, so that (never exercised) corner is represented by the
  dedicated marker `PyErr.unalignedIndex`.
* the external statsmodels routines (`VAR.select_order`, `VAR.fit`,
  `VARResults.forecast`, ARIMA, Prophet) are not part of the repository; they
  are abstracted as function parameters, so every theorem quantifies over the
  library's behaviour (restricted by explicit hypotheses where the library's
  documented behaviour matters).
-/

namespace SimuLad

/-! ### String primitives (models of the Python `str` operations used) -/

/-- Model of Python `str.lower` (ASCII data, as in the sensor column names). -/
def lowerChars (s : String) : List Char := s.data.map Char.toLower

/-- `isPrefixL pat s` is true when `pat` is a prefix of `s`. -/
def isPrefixL : List Char → List Char → Bool
  | [], _ => true
  | _ :: _, [] => false
  | a :: as, b :: bs => a = b && isPrefixL as bs

/-- Model of Python `pat in s` (substring occurrence). -/
def containsL (pat : List Char) : List Char → Bool
  | [] => isPrefixL pat []
  | c :: rest => isPrefixL pat (c :: rest) || containsL pat rest

/-- Fuel-driven worker for `replaceAll`; one unit of fuel per output step, so
fuel `s.length` is always enough for a non-empty pattern. -/
def replaceFuel (pat rep : List Char) : Nat → List Char → List Char
  | 0, s => s
  | _ + 1, [] => []
  | n + 1, c :: rest =>
    if isPrefixL pat (c :: rest) then rep ++ replaceFuel pat rep n ((c :: rest).drop pat.length)
    else c :: replaceFuel pat rep n rest

/-- Model of Python `s.replace(pat, rep)`: replace every (leftmost,
non-overlapping) occurrence of `pat` in `s` by `rep`. -/
def replaceAll (s pat rep : List Char) : List Char := replaceFuel pat rep s.length s

/-! ### Data model -/

/-- A pandas DataFrame as used by the core: the `DateTime` column (timestamps
in hours), the remaining column names, and the rows of sensor values. -/
structure Table where
  dateTime : List Int
  cols : List String
  rows : List (List Rat)
deriving Repr, DecidableEq

/-- A pandas Series with a string index (a single observation row, such as the
Last-Level Snapshot `data_indexed.iloc[-1]`). -/
structure Series where
  idx : List String
  vals : List Rat
deriving Repr, DecidableEq

/-- Python exceptions relevant to the modelled code. -/
inductive PyErr where
  | linAlgError
  | indexError
  | valueError (msg : String)
  | err (code : Nat)
  | unalignedIndex
deriving Repr, DecidableEq

/-! ### `convert_temperature_to_fahrenheit` (simulation.py lines 6–18) -/

/-- The column-matching test `"temp" in col.lower() and "degc" in col.lower()`. -/
def isCelsiusTempCol (col : String) : Bool :=
  containsL ['t', 'e', 'm', 'p'] (lowerChars col) &&
  containsL ['d', 'e', 'g', 'c'] (lowerChars col)

/-- The renaming `col.replace("degC", "degF").replace("DEGC", "degF")`. -/
def renameDegCol (col : String) : String :=
  String.mk (replaceAll (replaceAll col.data ['d', 'e', 'g', 'C'] ['d', 'e', 'g', 'F'])
    ['D', 'E', 'G', 'C'] ['d', 'e', 'g', 'F'])

/-- Value conversion of one row: `data[col] = data[col] * 1.8 + 32` applied to
every matched column (1.8 = 9/5 exactly). -/
def convertRow (cols : List String) (r : List Rat) : List Rat :=
  List.zipWith (fun c v => if isCelsiusTempCol c then v * (9 / 5 : Rat) + 32 else v) cols r

/-- `convert_temperature_to_fahrenheit`: converts the values of every matched
column, then renames the column; the loop runs over the original column names,
so values are converted under the original name and each column is visited
once. -/
def convert_temperature_to_fahrenheit (t : Table) : Table where
  dateTime := t.dateTime
  cols := t.cols.map (fun c => if isCelsiusTempCol c then renameDegCol c else c)
  rows := t.rows.map (convertRow t.cols)

/-! ### The abstract statsmodels VAR interface -/

/-- The result handle of a fitted VAR model: its selected lag order `k_ar`, the
variable columns it was trained on, and its (abstracted) forecasting routine
`forecast(window_values, steps)`. -/
structure VARResults where
  k_ar : Nat
  cols : List String
  forecastFn : List (List Rat) → Nat → List (List Rat)

/-- The two statsmodels calls made by `train_var_model`, abstracted:
`selectOrderAic rows maxlags` models `VAR(df).select_order(maxlags).aic`
(`none` when no AIC-optimal order is reported) and `fit rows lag` models
`VAR(df).fit(lag)`.  Either call may raise. -/
structure VARLib where
  selectOrderAic : List (List Rat) → Nat → Except PyErr (Option Nat)
  fit : List (List Rat) → Nat → Except PyErr VARResults

/-! ### `train_var_model` (simulation.py lines 20–55) -/

/-- The maxlags-reduction applied at simulation.py lines 36–37 and 48–49:
`if n <= maxlags: maxlags = max(1, n - 1)` (Python's `max(1, n - 1)` agrees
with `max 1 (n - 1)` on ℕ because truncated subtraction bottoms out at 0). -/
def adjustMaxlags (n maxlags : Nat) : Nat :=
  if n ≤ maxlags then max 1 (n - 1) else maxlags

/-- Lines 41–43 (and identically 51–53): select the lag order up to `maxlags`,
default to 1 when no AIC order is reported, and fit at the selected lag. -/
def fitWithSelectedLag (lib : VARLib) (rows : List (List Rat)) (maxlags : Nat) :
    Except PyErr VARResults :=
  match lib.selectOrderAic rows maxlags with
  | .error e => .error e
  | .ok aic => lib.fit rows (aic.getD 1)

/-- `data.diff().dropna()`: each row minus its predecessor, the (all-NaN)
first row dropped. -/
def diffRows : List (List Rat) → List (List Rat)
  | [] => []
  | [_] => []
  | r1 :: r2 :: rs => List.zipWith (fun b a => b - a) r2 r1 :: diffRows (r2 :: rs)

/-- `train_var_model(data, maxlags=3)`: convert units, reduce `maxlags` when
observations are scarce, attempt the level fit, and on `LinAlgError` fall back
to fitting the differenced series (re-reducing `maxlags` against the
differenced length) while retaining the last pre-difference row
`data_indexed.iloc[-1]` as the Last-Level Snapshot.  Only `LinAlgError`
is caught; every other exception propagates. -/
def train_var_model (lib : VARLib) (data : Table) (maxlags0 : Nat := 3) :
    Except PyErr (VARResults × Option Series) :=
  let dc := convert_temperature_to_fahrenheit data
  let maxlags := adjustMaxlags dc.rows.length maxlags0
  match fitWithSelectedLag lib dc.rows maxlags with
  | .ok results => .ok (results, none)
  | .error .linAlgError =>
    let dd := diffRows dc.rows
    let maxlags2 := adjustMaxlags dd.length maxlags
    match fitWithSelectedLag lib dd maxlags2 with
    | .ok results =>
      match dc.rows.getLast? with
      | some lastRow => .ok (results, some ⟨dc.cols, lastRow⟩)
      | none => .error .indexError
    | .error e => .error e
  | .error e => .error e

/-! ### `simulate_scenario` (simulation.py lines 57–102) -/

/-- `rows.iloc[-k:]`: the last `k` rows — with the pandas quirk that `k = 0`
selects every row (`iloc[-0:]` is `iloc[0:]`). -/
def ilocLastNeg (k : Nat) (rows : List (List Rat)) : List (List Rat) :=
  if k = 0 then rows else rows.drop (rows.length - k)

/-- `modified_obs.iloc[-1, j] += c`: add `c` at position `j` of the last row;
an empty frame raises `IndexError`. -/
def setLastRowAt (w : List (List Rat)) (j : Nat) (c : Rat) :
    Except PyErr (List (List Rat)) :=
  match w.getLast? with
  | none => .error .indexError
  | some r => .ok (w.dropLast ++ [r.set j (r.getD j 0 + c)])

/-- The level-branch adjustment loop (lines 75–77): for each `(var, change)`,
if `var` is a column, add `change` to that column's entry of the window's last
row. -/
def applyAdjustmentsLevel (cols : List String) (adjustments : List (String × Rat))
    (w : List (List Rat)) : Except PyErr (List (List Rat)) :=
  adjustments.foldlM
    (fun w p => if p.1 ∈ cols then setLastRowAt w (cols.indexOf p.1) p.2 else .ok w) w

/-- The differenced-branch adjustment loop (lines 88–91): `new_last` starts as
a copy of `last_level` and each `(var, change)` with `var` in its index gets
added in level space. -/
def applyAdjustmentsSeries (s : Series) (adjustments : List (String × Rat)) : Series :=
  adjustments.foldl
    (fun s p =>
      if p.1 ∈ s.idx then
        { s with vals := s.vals.set (s.idx.indexOf p.1) (s.vals.getD (s.idx.indexOf p.1) 0 + p.2) }
      else s) s

/-- Line 93: `diff_adjustment = new_last - original_last` (both Series carry
the same index whenever this is reached, so the subtraction is positional). -/
def diffAdjustment (lastLevel : Series) (adjustments : List (String × Rat))
    (originalLast : List Rat) : List Rat :=
  List.zipWith (fun a b => a - b) (applyAdjustmentsSeries lastLevel adjustments).vals originalLast

/-- Column-wise cumulative-sum worker. -/
def cumsumRowsAux : List Rat → List (List Rat) → List (List Rat)
  | _, [] => []
  | acc, r :: rs =>
    let s := List.zipWith (fun a b => a + b) acc r
    s :: cumsumRowsAux s rs

/-- `df.cumsum()`: each row becomes the column-wise sum of itself and all
earlier rows. -/
def cumsumRows : List (List Rat) → List (List Rat)
  | [] => []
  | r :: rs => r :: cumsumRowsAux r rs

/-- `pd.date_range(start=t, periods=steps+1, freq='H')[1:]`: the `steps`
hourly timestamps after `t`. -/
def forecastIndex (t : Int) (steps : Nat) : List Int :=
  (List.range steps).map (fun i => t + Int.ofNat i + 1)

/-- `simulate_scenario(data, var_results, adjustments, steps, last_level)`.
Level branch (`last_level` absent): perturb the last row of the last-`k_ar`
window and forecast.  Differenced branch (`last_level` present): recompute
differences, translate the level-space adjustment
`new_last - data_indexed.iloc[-1]` into a one-step difference added to the
window's last row, forecast differences, and reconstruct levels by
`cumsum() + last_level.values`.  The subtraction and the last-row addition
align two Series: when their indexes differ pandas would produce NaN-filled
unions, which lie outside this model (`PyErr.unalignedIndex`). -/
def simulate_scenario (varResults : VARResults) (data : Table)
    (adjustments : List (String × Rat)) (steps : Nat := 24)
    (lastLevel : Option Series := none) : Except PyErr Table :=
  let dc := convert_temperature_to_fahrenheit data
  match lastLevel with
  | none =>
    let lastObs := ilocLastNeg varResults.k_ar dc.rows
    match applyAdjustmentsLevel dc.cols adjustments lastObs with
    | .error e => .error e
    | .ok modifiedObs =>
      let fc := varResults.forecastFn modifiedObs steps
      match data.dateTime.getLast? with
      | none => .error .indexError
      | some t => .ok ⟨forecastIndex t steps, dc.cols, fc⟩
  | some lastLevel =>
    let dd := diffRows dc.rows
    let lastObsDiff := ilocLastNeg varResults.k_ar dd
    let newLast := applyAdjustmentsSeries lastLevel adjustments
    match dc.rows.getLast? with
    | none => .error .indexError
    | some originalLast =>
      if newLast.idx = dc.cols then
        let diffAdj := diffAdjustment lastLevel adjustments originalLast
        match lastObsDiff.getLast? with
        | none => .error .indexError
        | some lastRow =>
          let modifiedObsDiff := lastObsDiff.dropLast ++
            [List.zipWith (fun a b => a + b) lastRow diffAdj]
          let fcd := varResults.forecastFn modifiedObsDiff steps
          let fcl := (cumsumRows fcd).map
            (fun r => List.zipWith (fun a b => a + b) r lastLevel.vals)
          match data.dateTime.getLast? with
          | none => .error .indexError
          | some t => .ok ⟨forecastIndex t steps, dc.cols, fcl⟩
      else .error .unalignedIndex

/-! ### `alternative_models.py` -/

/-- A table whose measurement cells may be missing (`none` models NaN), as fed
to the single-series forecasters. -/
structure NTable where
  dateTime : List Int
  cols : List String
  rows : List (List (Option Rat))
deriving Repr, DecidableEq

/-- `data.set_index("DateTime").iloc[:, 1]`: the second remaining column. -/
def secondColumn (t : NTable) : List (Option Rat) :=
  t.rows.map (fun r => r.getD 1 none)

/-- `forecast_arima(data, order, steps)` (alternative_models.py lines 6–19):
raise `ValueError` when the series has fewer than 2 observations, otherwise
fit/forecast through the abstracted ARIMA routine and frame the result on the
hourly index after the last timestamp. -/
def forecast_arima (fitForecast : List (Option Rat) → Nat → Except PyErr (List Rat))
    (data : NTable) (steps : Nat := 24) : Except PyErr Table :=
  let ts := secondColumn data
  if ts.length < 2 then .error (.valueError "Not enough data for ARIMA forecasting")
  else
    match fitForecast ts steps with
    | .error e => .error e
    | .ok fc =>
      match data.dateTime.getLast? with
      | none => .error .indexError
      | some t =>
        .ok ⟨forecastIndex t steps, [data.cols.getD 1 ""], fc.map (fun v => [v])⟩

/-- `forecast_prophet(data, steps)` (alternative_models.py lines 21–36): raise
`ValueError` when fewer than 2 non-missing values exist, otherwise fit/predict
through the abstracted Prophet routine, which returns the `(ds, yhat)` tail of
length `steps`. -/
def forecast_prophet (fitPredict : List (Int × Option Rat) → Nat → Except PyErr (List (Int × Rat)))
    (data : NTable) (steps : Nat := 24) : Except PyErr Table :=
  let ts := List.zip data.dateTime (secondColumn data)
  if ((secondColumn data).filterMap id).length < 2 then
    .error (.valueError "Not enough non-NaN data for Prophet forecasting")
  else
    match fitPredict ts steps with
    | .error e => .error e
    | .ok fc => .ok ⟨fc.map Prod.fst, ["yhat"], fc.map (fun p => [p.2])⟩

/-! ### Concrete instances used by counterexamples and witnesses -/

/-- A trivial fitted-model handle. -/
def res0 : VARResults := ⟨1, [], fun _ _ => []⟩

/-- A VAR library whose selection and fit always succeed. -/
def libOk : VARLib := ⟨fun _ _ => .ok (some 1), fun _ _ => .ok res0⟩

/-- A VAR library whose fit raises `LinAlgError` except on two-row inputs. -/
def libFallback : VARLib :=
  ⟨fun _ _ => .ok (some 1), fun rows _ => if rows.length = 2 then .ok res0 else .error .linAlgError⟩

/-- A VAR library whose fit raises a non-`LinAlgError` exception. -/
def libErr7 : VARLib := ⟨fun _ _ => .ok (some 1), fun _ _ => .error (.err 7)⟩

/-- A VAR library whose selection reports no AIC-optimal order. -/
def libSel0 : VARLib := ⟨fun _ _ => .ok none, fun _ _ => .ok res0⟩

/-- A one-row observation table. -/
def tbl1 : Table := ⟨[0], ["W"], [[3]]⟩

/-- A three-row observation table. -/
def tbl3 : Table := ⟨[0, 1, 2], ["W"], [[1], [2], [4]]⟩

/-- A table with a Celsius temperature column whose marker is spelled in
lower case (`degc`), so the renaming rewrites nothing. -/
def tblLowerCased : Table := ⟨[0], ["Temp_degc"], [[0]]⟩

/-- A table with a Celsius temperature column with the exact `degC` marker. -/
def tblUpperCased : Table := ⟨[0], ["Temp_degC"], [[0]]⟩

/-- A model handle with lag order 1 that forecasts by echoing the window's
last row. -/
def resEcho : VARResults := ⟨1, ["W"], fun w _ => [w.getLastD []]⟩

/-- A model handle with lag order 2 that forecasts by replicating the
window's last row. -/
def resRep : VARResults := ⟨2, ["W"], fun w s => List.replicate s (w.getLastD [])⟩

/-- A one-row NaN-capable table for the single-series forecasters. -/
def ntbl1 : NTable := ⟨[0], ["Location", "Y"], [[some 5, some 7]]⟩

/-- A model handle with lag order 1 whose forecast is a constant trajectory of
one-column rows (so its output shape is well-behaved for every window). -/
def resConst : VARResults := ⟨1, ["W"], fun _ s => List.replicate s [0]⟩

/-- The level-branch fitting attempt of `train_var_model` (the `try` block,
lines 39–44): select and fit on the converted rows at the reduced maximum
lag. -/
def levelAttempt (lib : VARLib) (data : Table) (maxlags0 : Nat) : Except PyErr VARResults :=
  fitWithSelectedLag lib (convert_temperature_to_fahrenheit data).rows
    (adjustMaxlags (convert_temperature_to_fahrenheit data).rows.length maxlags0)

/-- The fallback fitting attempt of `train_var_model` (lines 47–53): select
and fit on the differenced rows, re-reducing the already-reduced maximum lag
against the differenced length. -/
def diffAttempt (lib : VARLib) (data : Table) (maxlags0 : Nat) : Except PyErr VARResults :=
  fitWithSelectedLag lib (diffRows (convert_temperature_to_fahrenheit data).rows)
    (adjustMaxlags (diffRows (convert_temperature_to_fahrenheit data).rows).length
      (adjustMaxlags (convert_temperature_to_fahrenheit data).rows.length maxlags0))

/-! ### Helper lemmas about unit conversion -/

theorem convertRow_eq_self (cols : List String) (r : List Rat)
    (h : ∀ c ∈ cols, isCelsiusTempCol c = false) (hl : r.length ≤ cols.length) :
    convertRow cols r = r := by
  induction cols generalizing r with
  | nil =>
    have hr : r = [] := by cases r <;> simp_all
    subst hr; rfl
  | cons c cs ih =>
    cases r with
    | nil => rfl
    | cons v vs =>
      have hc : isCelsiusTempCol c = false := h c (by simp)
      have ht : convertRow cs vs = vs :=
        ih vs (fun x hx => h x (by simp [hx])) (by simpa using hl)
      simpa [convertRow, hc] using ht

theorem convert_eq_self (t : Table) (h : ∀ c ∈ t.cols, isCelsiusTempCol c = false)
    (hw : ∀ r ∈ t.rows, r.length ≤ t.cols.length) :
    convert_temperature_to_fahrenheit t = t := by
  cases t with
  | mk dt cols rows =>
    simp only [convert_temperature_to_fahrenheit, Table.mk.injEq, true_and]
    constructor
    · have h1 : List.map (fun c => if isCelsiusTempCol c = true then renameDegCol c else c)
          cols = List.map (fun c => c) cols :=
        List.map_congr_left (fun c hc => by simp [h c hc])
      simpa using h1
    · have h2 : List.map (convertRow cols) rows = List.map (fun r => r) rows :=
        List.map_congr_left (fun r hr => convertRow_eq_self cols r h (hw r hr))
      simpa using h2

theorem convertRow_length (cols : List String) (r : List Rat) :
    (convertRow cols r).length = min cols.length r.length := by
  simp [convertRow]

theorem convert_cols_length (t : Table) :
    (convert_temperature_to_fahrenheit t).cols.length = t.cols.length := by
  simp [convert_temperature_to_fahrenheit]

theorem convert_rows_width (t : Table) :
    ∀ r ∈ (convert_temperature_to_fahrenheit t).rows,
      r.length ≤ (convert_temperature_to_fahrenheit t).cols.length := by
  intro r hr
  rcases List.mem_map.1 hr with ⟨r0, _, rfl⟩
  rw [convertRow_length, convert_cols_length]
  omega

/-! ### Claim C2 — idempotence of unit conversion -/

/-- C2, counterexample: conversion is NOT idempotent on every table.  On a
column named `Temp_degc` (marker spelled in lower case) the value is matched
and converted, but the rename — which only rewrites the spellings `degC` and
`DEGC` — leaves the name bearing the marker, so a second application converts
the values again (0 ↦ 32 ↦ 89.6). -/
theorem C2_counterexample :
    convert_temperature_to_fahrenheit (convert_temperature_to_fahrenheit tblLowerCased) ≠
      convert_temperature_to_fahrenheit tblLowerCased := by
  have h1 : isCelsiusTempCol "Temp_degc" = true := by decide
  have h2 : renameDegCol "Temp_degc" = "Temp_degc" := by decide
  simp [convert_temperature_to_fahrenheit, tblLowerCased, convertRow, Table.mk.injEq, h1, h2]

/-- C2, amended: conversion is idempotent on every table whose once-converted
column names no longer bear the Celsius marker (in particular whenever each
matched column spells the marker exactly `degC` or `DEGC`, so that the
renaming removes it): converting twice then equals converting once, in both
column names and values. -/
theorem C2_theorem (t : Table)
    (h : ∀ c ∈ (convert_temperature_to_fahrenheit t).cols, isCelsiusTempCol c = false) :
    convert_temperature_to_fahrenheit (convert_temperature_to_fahrenheit t) =
      convert_temperature_to_fahrenheit t :=
  convert_eq_self _ h (convert_rows_width t)

/-- C2, witness: on the exactly-spelled table the hypothesis holds and the
amended idempotence follows. -/
theorem C2_witness :
    convert_temperature_to_fahrenheit (convert_temperature_to_fahrenheit tblUpperCased) =
      convert_temperature_to_fahrenheit tblUpperCased :=
  C2_theorem tblUpperCased (by decide)

/-! ### Claim C1 — no insufficiency check in `train_var_model` -/

/-- C1, counterexample: with a single observation (fewer than 2)
`train_var_model` raises nothing at all: no insufficiency check is performed,
the maximum lag is reduced to 1, the fit is attempted, and when the underlying
routine succeeds the call returns successfully. -/
theorem C1_counterexample :
    (convert_temperature_to_fahrenheit tbl1).rows.length < 2 ∧
      train_var_model libOk tbl1 3 = .ok (res0, none) :=
  ⟨by decide, rfl⟩

/-- C1, amended: `train_var_model` performs no data-insufficiency check and
never raises an insufficiency error of its own: for every table — with fewer
than 2 observations the maximum lag is reduced to 1 — it proceeds to attempt
the fit, and whenever the underlying selection and fitting routines succeed
the call succeeds. -/
theorem C1_theorem (lib : VARLib) (data : Table) (maxlags0 : Nat)
    (hml : 1 ≤ maxlags0)
    (hsel : ∀ rows l, ∃ oa, lib.selectOrderAic rows l = .ok oa)
    (hfit : ∀ rows l, ∃ r, lib.fit rows l = .ok r) :
    ((convert_temperature_to_fahrenheit data).rows.length < 2 →
      adjustMaxlags (convert_temperature_to_fahrenheit data).rows.length maxlags0 = 1) ∧
    ∃ r, train_var_model lib data maxlags0 = .ok r := by
  constructor
  · intro h2
    unfold adjustMaxlags
    rw [if_pos (by omega)]
    omega
  · obtain ⟨oa, hs⟩ := hsel (convert_temperature_to_fahrenheit data).rows
      (adjustMaxlags (convert_temperature_to_fahrenheit data).rows.length maxlags0)
    obtain ⟨r, hf⟩ := hfit (convert_temperature_to_fahrenheit data).rows (oa.getD 1)
    exact ⟨(r, none), by simp [train_var_model, fitWithSelectedLag, hs, hf]⟩

/-- C1, witness: the amended statement at the one-row table and an
always-succeeding library. -/
theorem C1_witness : ∃ r, train_var_model libOk tbl1 3 = .ok r :=
  (C1_theorem libOk tbl1 3 (by decide) (fun _ _ => ⟨some 1, rfl⟩)
    (fun _ _ => ⟨res0, rfl⟩)).2

/-! ### Helper lemmas about `train_var_model`'s control flow -/

theorem train_var_model_cases (lib : VARLib) (data : Table) (maxlags0 : Nat) :
    train_var_model lib data maxlags0 =
      match levelAttempt lib data maxlags0 with
      | .ok r => .ok (r, none)
      | .error .linAlgError =>
        match diffAttempt lib data maxlags0 with
        | .ok r =>
          match (convert_temperature_to_fahrenheit data).rows.getLast? with
          | some lastRow =>
            .ok (r, some ⟨(convert_temperature_to_fahrenheit data).cols, lastRow⟩)
          | none => .error .indexError
        | .error e => .error e
      | .error e => .error e := rfl

theorem train_of_levelAttempt_ok (lib : VARLib) (data : Table) (maxlags0 : Nat)
    (res : VARResults) (h : levelAttempt lib data maxlags0 = .ok res) :
    train_var_model lib data maxlags0 = .ok (res, none) := by
  rw [train_var_model_cases, h]

theorem train_ok_inv (lib : VARLib) (data : Table) (maxlags0 : Nat)
    (res : VARResults) (snap : Option Series)
    (h : train_var_model lib data maxlags0 = .ok (res, snap)) :
    (snap = none ∧ levelAttempt lib data maxlags0 = .ok res) ∨
    (levelAttempt lib data maxlags0 = .error .linAlgError ∧
      diffAttempt lib data maxlags0 = .ok res ∧
      ∃ lastRow, (convert_temperature_to_fahrenheit data).rows.getLast? = some lastRow ∧
        snap = some ⟨(convert_temperature_to_fahrenheit data).cols, lastRow⟩) := by
  rw [train_var_model_cases] at h
  cases h1 : levelAttempt lib data maxlags0 with
  | ok r =>
    rw [h1] at h
    simp only [Except.ok.injEq, Prod.mk.injEq] at h
    exact Or.inl ⟨h.2.symm, by rw [h.1]⟩
  | error e =>
    cases e with
    | linAlgError =>
      rw [h1] at h
      cases h2 : diffAttempt lib data maxlags0 with
      | ok r2 =>
        rw [h2] at h
        cases h3 : (convert_temperature_to_fahrenheit data).rows.getLast? with
        | some lastRow =>
          rw [h3] at h
          simp only [Except.ok.injEq, Prod.mk.injEq] at h
          exact Or.inr ⟨rfl, by rw [h.1], lastRow, rfl, h.2.symm⟩
        | none => rw [h3] at h; exact absurd h (by simp)
      | error e2 => rw [h2] at h; exact absurd h (by simp)
    | indexError => rw [h1] at h; exact absurd h (by simp)
    | valueError m => rw [h1] at h; exact absurd h (by simp)
    | err c => rw [h1] at h; exact absurd h (by simp)
    | unalignedIndex => rw [h1] at h; exact absurd h (by simp)

theorem fitWithSelectedLag_ok_inv (lib : VARLib) (rows : List (List Rat)) (ml : Nat)
    (res : VARResults) (h : fitWithSelectedLag lib rows ml = .ok res) :
    ∃ oa, lib.selectOrderAic rows ml = .ok oa ∧ lib.fit rows (oa.getD 1) = .ok res := by
  unfold fitWithSelectedLag at h
  cases h1 : lib.selectOrderAic rows ml with
  | ok oa => rw [h1] at h; exact ⟨oa, rfl, h⟩
  | error e => rw [h1] at h; exact absurd h (by simp)

theorem adjustMaxlags_le (n ml : Nat) (h : 1 ≤ ml) : adjustMaxlags n ml ≤ ml := by
  unfold adjustMaxlags; split <;> omega

theorem adjustMaxlags_pos (n ml : Nat) (h : 1 ≤ ml) : 1 ≤ adjustMaxlags n ml := by
  unfold adjustMaxlags; split <;> omega

/-! ### Claim C4 — snapshot presence and error propagation -/

/-- C4: `train_var_model` returns a `none` snapshot exactly when the level
attempt succeeded; it returns a snapshot — the last pre-difference converted
observation row — exactly when the level attempt failed with the
near-singular-covariance `LinAlgError` and the differenced fit succeeded; and
any non-`LinAlgError` failure of the level attempt propagates to the caller
unmodified. -/
theorem C4_theorem (lib : VARLib) (data : Table) (maxlags0 : Nat) :
    (∀ e, e ≠ PyErr.linAlgError → levelAttempt lib data maxlags0 = .error e →
      train_var_model lib data maxlags0 = .error e) ∧
    (∀ res snap, train_var_model lib data maxlags0 = .ok (res, snap) →
      (snap = none ↔ levelAttempt lib data maxlags0 = .ok res) ∧
      (∀ s, snap = some s →
        levelAttempt lib data maxlags0 = .error .linAlgError ∧
        diffAttempt lib data maxlags0 = .ok res ∧
        ∃ lastRow, (convert_temperature_to_fahrenheit data).rows.getLast? = some lastRow ∧
          s = ⟨(convert_temperature_to_fahrenheit data).cols, lastRow⟩)) := by
  constructor
  · intro e he h1
    rw [train_var_model_cases, h1]
    cases e with
    | linAlgError => exact absurd rfl he
    | indexError => rfl
    | valueError m => rfl
    | err c => rfl
    | unalignedIndex => rfl
  · intro res snap h
    rcases train_ok_inv lib data maxlags0 res snap h with ⟨hn, hok⟩ | ⟨hlin, hok, lastRow, hlast, hs⟩
    · constructor
      · exact ⟨fun _ => hok, fun _ => hn⟩
      · intro s hsome; rw [hn] at hsome; exact absurd hsome (by simp)
    · constructor
      · constructor
        · intro hn; rw [hs] at hn; exact absurd hn (by simp)
        · intro hlv; rw [hlv] at hlin; exact absurd hlin (by simp)
      · intro s hsome
        rw [hs] at hsome
        simp only [Option.some.injEq] at hsome
        exact ⟨hlin, hok, lastRow, hlast, hsome.symm⟩

/-- C4, witness: a library whose fit raises the non-`LinAlgError` exception
`err 7` sees that exception propagate unmodified out of `train_var_model`. -/
theorem C4_witness : train_var_model libErr7 tbl3 3 = .error (.err 7) :=
  (C4_theorem libErr7 tbl3 3).1 (.err 7) (by simp) rfl

/-! ### Claim C7 — lag reduction and the fitted lag bound -/

/-- C7: when the number of observations is at most the requested maximum lag,
the effective maximum becomes `max 1 (n - 1)`; the identical reduction is
reapplied to the differenced length in the fallback (`diffAttempt`'s bound);
and, provided the selection routine never reports an order above its bound,
the lag actually fitted never exceeds the requested maximum. -/
theorem C7_theorem (lib : VARLib) (data : Table) (maxlags0 : Nat)
    (hml : 1 ≤ maxlags0)
    (hsel : ∀ rows l a, lib.selectOrderAic rows l = .ok (some a) → a ≤ l) :
    (∀ n, n ≤ maxlags0 → adjustMaxlags n maxlags0 = max 1 (n - 1)) ∧
    (∀ res snap, train_var_model lib data maxlags0 = .ok (res, snap) →
      ∃ rows eff oa,
        ((snap = none ∧ rows = (convert_temperature_to_fahrenheit data).rows ∧
           eff = adjustMaxlags (convert_temperature_to_fahrenheit data).rows.length maxlags0) ∨
         (snap ≠ none ∧ rows = diffRows (convert_temperature_to_fahrenheit data).rows ∧
           eff = adjustMaxlags (diffRows (convert_temperature_to_fahrenheit data).rows).length
             (adjustMaxlags (convert_temperature_to_fahrenheit data).rows.length maxlags0))) ∧
        lib.selectOrderAic rows eff = .ok oa ∧
        lib.fit rows (oa.getD 1) = .ok res ∧
        oa.getD 1 ≤ maxlags0) := by
  constructor
  · intro n hn; unfold adjustMaxlags; rw [if_pos hn]
  · intro res snap h
    have lagBound : ∀ rows eff oa, eff ≤ maxlags0 →
        lib.selectOrderAic rows eff = .ok oa → oa.getD 1 ≤ maxlags0 := by
      intro rows eff oa heff hsa
      cases oa with
      | none => simpa using hml
      | some a => simpa using le_trans (hsel rows eff a hsa) heff
    rcases train_ok_inv lib data maxlags0 res snap h with ⟨hn, hok⟩ | ⟨_, hok, _, _, hs⟩
    · rcases fitWithSelectedLag_ok_inv lib _ _ res hok with ⟨oa, hsa, hfa⟩
      refine ⟨_, _, oa, Or.inl ⟨hn, rfl, rfl⟩, hsa, hfa, ?_⟩
      exact lagBound _ _ oa (adjustMaxlags_le _ _ hml) hsa
    · rcases fitWithSelectedLag_ok_inv lib _ _ res hok with ⟨oa, hsa, hfa⟩
      refine ⟨_, _, oa, Or.inr ⟨by simp [hs], rfl, rfl⟩, hsa, hfa, ?_⟩
      exact lagBound _ _ oa
        (le_trans (adjustMaxlags_le _ _ (adjustMaxlags_pos _ _ hml)) (adjustMaxlags_le _ _ hml))
        hsa

/-- C7, witness: the lag-reduction facts and the fitted-lag bound at a
concrete successful training run (selection reports no AIC order, so the fit
uses lag 1 ≤ 3). -/
theorem C7_witness :
    ∃ rows eff oa,
      ((none = (none : Option Series) ∧ rows = (convert_temperature_to_fahrenheit tbl3).rows ∧
         eff = adjustMaxlags (convert_temperature_to_fahrenheit tbl3).rows.length 3) ∨
       (none ≠ (none : Option Series) ∧
         rows = diffRows (convert_temperature_to_fahrenheit tbl3).rows ∧
         eff = adjustMaxlags (diffRows (convert_temperature_to_fahrenheit tbl3).rows).length
           (adjustMaxlags (convert_temperature_to_fahrenheit tbl3).rows.length 3))) ∧
      libSel0.selectOrderAic rows eff = .ok oa ∧
      libSel0.fit rows (oa.getD 1) = .ok res0 ∧
      oa.getD 1 ≤ 3 :=
  (C7_theorem libSel0 tbl3 3 (by omega)
    (fun rows l a h => by simp [libSel0] at h)).2 res0 none rfl

/-! ### Claim C10 — the fitted lag is the AIC order, defaulting to 1 -/

/-- C10: every successful `train_var_model` call — in the level branch and in
the differenced fallback alike — fitted the model at exactly the lag reported
by the information-criterion selection, with lag 1 used when no AIC-optimal
order was reported. -/
theorem C10_theorem (lib : VARLib) (data : Table) (maxlags0 : Nat)
    (res : VARResults) (snap : Option Series)
    (h : train_var_model lib data maxlags0 = .ok (res, snap)) :
    ∃ rows eff oa,
      lib.selectOrderAic rows eff = .ok oa ∧
      lib.fit rows (match oa with | none => 1 | some a => a) = .ok res ∧
      ((snap = none ∧ rows = (convert_temperature_to_fahrenheit data).rows ∧
         eff = adjustMaxlags (convert_temperature_to_fahrenheit data).rows.length maxlags0) ∨
       (snap ≠ none ∧ rows = diffRows (convert_temperature_to_fahrenheit data).rows ∧
         eff = adjustMaxlags (diffRows (convert_temperature_to_fahrenheit data).rows).length
           (adjustMaxlags (convert_temperature_to_fahrenheit data).rows.length maxlags0))) := by
  have hgd : ∀ oa : Option Nat, (match oa with | none => 1 | some a => a) = oa.getD 1 := by
    intro oa; cases oa <;> rfl
  rcases train_ok_inv lib data maxlags0 res snap h with ⟨hn, hok⟩ | ⟨_, hok, _, _, hs⟩
  · rcases fitWithSelectedLag_ok_inv lib _ _ res hok with ⟨oa, hsa, hfa⟩
    exact ⟨_, _, oa, hsa, by rw [hgd]; exact hfa, Or.inl ⟨hn, rfl, rfl⟩⟩
  · rcases fitWithSelectedLag_ok_inv lib _ _ res hok with ⟨oa, hsa, hfa⟩
    exact ⟨_, _, oa, hsa, by rw [hgd]; exact hfa, Or.inr ⟨by simp [hs], rfl, rfl⟩⟩

/-- C10, witness: the characterization applied to a concrete successful
level-branch training run. -/
theorem C10_witness :
    ∃ rows eff oa,
      libOk.selectOrderAic rows eff = .ok oa ∧
      libOk.fit rows (match oa with | none => 1 | some a => a) = .ok res0 ∧
      (((none : Option Series) = none ∧ rows = (convert_temperature_to_fahrenheit tbl3).rows ∧
         eff = adjustMaxlags (convert_temperature_to_fahrenheit tbl3).rows.length 3) ∨
       ((none : Option Series) ≠ none ∧
         rows = diffRows (convert_temperature_to_fahrenheit tbl3).rows ∧
         eff = adjustMaxlags (diffRows (convert_temperature_to_fahrenheit tbl3).rows).length
           (adjustMaxlags (convert_temperature_to_fahrenheit tbl3).rows.length 3))) :=
  C10_theorem libOk tbl3 3 res0 none rfl

/-! ### Helper lemmas about `simulate_scenario` -/

theorem simulate_level_cases (m : VARResults) (data : Table)
    (adjs : List (String × Rat)) (steps : Nat) :
    simulate_scenario m data adjs steps none =
      match applyAdjustmentsLevel (convert_temperature_to_fahrenheit data).cols adjs
          (ilocLastNeg m.k_ar (convert_temperature_to_fahrenheit data).rows) with
      | .error e => .error e
      | .ok modifiedObs =>
        match data.dateTime.getLast? with
        | none => .error .indexError
        | some t =>
          .ok ⟨forecastIndex t steps, (convert_temperature_to_fahrenheit data).cols,
            m.forecastFn modifiedObs steps⟩ := rfl

theorem simulate_diff_cases (m : VARResults) (data : Table)
    (adjs : List (String × Rat)) (steps : Nat) (ll : Series) :
    simulate_scenario m data adjs steps (some ll) =
      match (convert_temperature_to_fahrenheit data).rows.getLast? with
      | none => .error .indexError
      | some originalLast =>
        if (applyAdjustmentsSeries ll adjs).idx = (convert_temperature_to_fahrenheit data).cols
        then
          match (ilocLastNeg m.k_ar
              (diffRows (convert_temperature_to_fahrenheit data).rows)).getLast? with
          | none => .error .indexError
          | some lastRow =>
            match data.dateTime.getLast? with
            | none => .error .indexError
            | some t =>
              .ok ⟨forecastIndex t steps, (convert_temperature_to_fahrenheit data).cols,
                (cumsumRows (m.forecastFn
                  ((ilocLastNeg m.k_ar
                      (diffRows (convert_temperature_to_fahrenheit data).rows)).dropLast ++
                    [List.zipWith (fun a b => a + b) lastRow
                      (diffAdjustment ll adjs originalLast)]) steps)).map
                  (fun r => List.zipWith (fun a b => a + b) r ll.vals)⟩
        else .error .unalignedIndex := rfl

theorem ilocLastNeg_length (k : Nat) (rows : List (List Rat)) (hk : 1 ≤ k) :
    (ilocLastNeg k rows).length = min k rows.length := by
  unfold ilocLastNeg
  rw [if_neg (by omega)]
  rw [List.length_drop]
  omega

theorem ilocLastNeg_ne_nil (k : Nat) (rows : List (List Rat)) (h : rows ≠ []) :
    ilocLastNeg k rows ≠ [] := by
  have hpos : 0 < rows.length := List.length_pos.2 h
  unfold ilocLastNeg
  split
  · exact h
  · intro hc
    have hl := congrArg List.length hc
    rw [List.length_drop] at hl
    simp only [List.length_nil] at hl
    omega

theorem setLastRowAt_ok (w : List (List Rat)) (j : Nat) (c : Rat) (h : w ≠ []) :
    ∃ w', setLastRowAt w j c = .ok w' ∧ w'.length = w.length ∧ w' ≠ [] := by
  have hpos : 0 < w.length := List.length_pos.2 h
  cases hg : w.getLast? with
  | none => exact absurd (List.getLast?_eq_none_iff.1 hg) h
  | some r =>
    refine ⟨w.dropLast ++ [r.set j (r.getD j 0 + c)], by simp [setLastRowAt, hg], ?_, by simp⟩
    rw [List.length_append, List.length_dropLast]
    simp
    omega

theorem applyAdjustmentsLevel_ok (cols : List String) (adjs : List (String × Rat))
    (w : List (List Rat)) (h : w ≠ []) :
    ∃ w', applyAdjustmentsLevel cols adjs w = .ok w' ∧ w'.length = w.length ∧ w' ≠ [] := by
  induction adjs generalizing w with
  | nil => exact ⟨w, rfl, rfl, h⟩
  | cons p rest ih =>
    unfold applyAdjustmentsLevel at *
    rw [List.foldlM_cons]
    by_cases hp : p.1 ∈ cols
    · rw [if_pos hp]
      obtain ⟨w1, hw1, hlen1, hne1⟩ := setLastRowAt_ok w (cols.indexOf p.1) p.2 h
      rw [hw1]
      obtain ⟨w', hw', hlen', hne'⟩ := ih w1 hne1
      exact ⟨w', by simpa using hw', by omega, hne'⟩
    · rw [if_neg hp]
      obtain ⟨w', hw', hlen', hne'⟩ := ih w h
      exact ⟨w', by simpa using hw', hlen', hne'⟩

/-! ### Claim C5 — no lag-order row check in `simulate_scenario` -/

/-- C5, counterexample: with one available row and a fitted lag order of 2,
`simulate_scenario` raises nothing: the pandas slice `iloc[-k_ar:]` silently
yields a 1-row window (fewer than the lag order) and the forecast is built
from it. -/
theorem C5_counterexample :
    (ilocLastNeg resRep.k_ar (convert_temperature_to_fahrenheit tbl1).rows).length = 1 ∧
      resRep.k_ar = 2 ∧
      simulate_scenario resRep tbl1 [] 5 none =
        .ok ⟨[1, 2, 3, 4, 5], ["W"], [[3], [3], [3], [3], [3]]⟩ := by
  have h1 : isCelsiusTempCol "W" = false := by decide
  refine ⟨by decide, rfl, ?_⟩
  simp [simulate_scenario, resRep, tbl1, convert_temperature_to_fahrenheit, convertRow,
    ilocLastNeg, applyAdjustmentsLevel, forecastIndex, h1, List.range_succ,
    List.replicate, pure, Except.pure]

/-- C5, amended: `simulate_scenario` performs no row-count check and never
raises an insufficient-data error for a short history: the window fed to the
forecasting routine is the last `min(k_ar, n)` available rows — in the level
branch of the raw rows, in the differenced branch of the differenced rows —
(all rows when `k_ar = 0`), hence exactly `k_ar` rows when enough are
available; and the level branch returns a forecast table whenever the
(nonempty) table has a last timestamp, however few rows it has. -/
theorem C5_theorem (m : VARResults) (data : Table) (adjs : List (String × Rat))
    (steps : Nat) (hk : 1 ≤ m.k_ar)
    (hr : (convert_temperature_to_fahrenheit data).rows ≠ [])
    (hd : data.dateTime ≠ []) :
    (ilocLastNeg m.k_ar (convert_temperature_to_fahrenheit data).rows).length =
      min m.k_ar (convert_temperature_to_fahrenheit data).rows.length ∧
    (ilocLastNeg m.k_ar (diffRows (convert_temperature_to_fahrenheit data).rows)).length =
      min m.k_ar (diffRows (convert_temperature_to_fahrenheit data).rows).length ∧
    (m.k_ar ≤ (convert_temperature_to_fahrenheit data).rows.length →
      (ilocLastNeg m.k_ar (convert_temperature_to_fahrenheit data).rows).length = m.k_ar) ∧
    ∃ F, simulate_scenario m data adjs steps none = .ok F := by
  refine ⟨ilocLastNeg_length _ _ hk, ilocLastNeg_length _ _ hk, ?_, ?_⟩
  · intro hle
    rw [ilocLastNeg_length _ _ hk]
    omega
  · obtain ⟨w', hw', _, _⟩ := applyAdjustmentsLevel_ok
      (convert_temperature_to_fahrenheit data).cols adjs
      (ilocLastNeg m.k_ar (convert_temperature_to_fahrenheit data).rows)
      (ilocLastNeg_ne_nil _ _ hr)
    cases ht : data.dateTime.getLast? with
    | none => exact absurd (List.getLast?_eq_none_iff.1 ht) hd
    | some t =>
      exact ⟨⟨forecastIndex t steps, (convert_temperature_to_fahrenheit data).cols,
        m.forecastFn w' steps⟩, by rw [simulate_level_cases, hw', ht]⟩

/-- C5, witness: the amended window rule and error-freedom at a concrete
3-row table and lag order 1, with a nonempty adjustment set. -/
theorem C5_witness :
    ∃ F, simulate_scenario resEcho tbl3 [("W", 2)] 4 none = .ok F :=
  (C5_theorem resEcho tbl3 [("W", 2)] 4 (by decide) (by decide) (by decide)).2.2.2

/-! ### Helper lemmas: membership filtering of adjustment sets -/

theorem applyAdjustmentsLevel_filter (cols : List String) (adjs : List (String × Rat))
    (w : List (List Rat)) :
    applyAdjustmentsLevel cols (adjs.filter (fun p => decide (p.1 ∈ cols))) w =
      applyAdjustmentsLevel cols adjs w := by
  induction adjs generalizing w with
  | nil => rfl
  | cons p rest ih =>
    unfold applyAdjustmentsLevel at *
    by_cases hp : p.1 ∈ cols
    · rw [List.filter_cons_of_pos (by simpa using hp)]
      simp only [List.foldlM_cons, if_pos hp]
      cases hs : setLastRowAt w (cols.indexOf p.1) p.2 with
      | ok w1 => simpa using ih w1
      | error e => rfl
    · rw [List.filter_cons_of_neg (by simpa using hp)]
      simp only [List.foldlM_cons, if_neg hp]
      simpa using ih w

theorem applyAdjustmentsSeries_idx (s : Series) (adjs : List (String × Rat)) :
    (applyAdjustmentsSeries s adjs).idx = s.idx := by
  induction adjs generalizing s with
  | nil => rfl
  | cons p rest ih =>
    unfold applyAdjustmentsSeries at *
    rw [List.foldl_cons]
    by_cases hp : p.1 ∈ s.idx
    · rw [if_pos hp]; exact ih _
    · rw [if_neg hp]; exact ih s

theorem applyAdjustmentsSeries_filter (s : Series) (adjs : List (String × Rat)) :
    applyAdjustmentsSeries s (adjs.filter (fun p => decide (p.1 ∈ s.idx))) =
      applyAdjustmentsSeries s adjs := by
  induction adjs generalizing s with
  | nil => rfl
  | cons p rest ih =>
    unfold applyAdjustmentsSeries at *
    by_cases hp : p.1 ∈ s.idx
    · rw [List.filter_cons_of_pos (by simpa using hp), List.foldl_cons, List.foldl_cons,
        if_pos hp]
      exact ih _
    · rw [List.filter_cons_of_neg (by simpa using hp), List.foldl_cons, if_neg hp]
      exact ih s

/-! ### Claim C6 — unknown adjustment keys are ignored -/

/-- C6: for a model whose variable columns are the converted table's columns
(as produced by training on that table), simulating with any adjustment set
equals simulating with the set restricted to the model's columns — in both
branches, and including error behaviour, so absent keys raise nothing and
change nothing — and the empty adjustment set reproduces the model's
unconditional forecast of the unmodified lag-order window. -/
theorem C6_theorem (m : VARResults) (data : Table) (adjs : List (String × Rat))
    (steps : Nat) (ll : Option Series)
    (hm : m.cols = (convert_temperature_to_fahrenheit data).cols) :
    simulate_scenario m data adjs steps ll =
      simulate_scenario m data (adjs.filter (fun p => decide (p.1 ∈ m.cols))) steps ll ∧
    (∀ t, data.dateTime.getLast? = some t →
      simulate_scenario m data [] steps none =
        .ok ⟨forecastIndex t steps, (convert_temperature_to_fahrenheit data).cols,
          m.forecastFn (ilocLastNeg m.k_ar (convert_temperature_to_fahrenheit data).rows)
            steps⟩) := by
  constructor
  · cases ll with
    | none =>
      rw [simulate_level_cases, simulate_level_cases, hm, applyAdjustmentsLevel_filter]
    | some s =>
      by_cases hidx : s.idx = (convert_temperature_to_fahrenheit data).cols
      · rw [simulate_diff_cases, simulate_diff_cases, hm, ← hidx,
          applyAdjustmentsSeries_filter]
        unfold diffAdjustment
        rw [applyAdjustmentsSeries_filter]
      · rw [simulate_diff_cases, simulate_diff_cases]
        cases hg : (convert_temperature_to_fahrenheit data).rows.getLast? with
        | none => rfl
        | some originalLast => simp [applyAdjustmentsSeries_idx, hidx]
  · intro t ht
    rw [simulate_level_cases,
      show applyAdjustmentsLevel (convert_temperature_to_fahrenheit data).cols []
          (ilocLastNeg m.k_ar (convert_temperature_to_fahrenheit data).rows) =
        Except.ok (ilocLastNeg m.k_ar (convert_temperature_to_fahrenheit data).rows) from rfl,
      ht]

/-- C6, witness: restricting an adjustment set with an unknown key (`"X"`)
changes nothing at a concrete simulation call. -/
theorem C6_witness :
    simulate_scenario resEcho tbl3 [("X", 5)] 2 none =
      simulate_scenario resEcho tbl3
        ([("X", 5)].filter (fun p => decide (p.1 ∈ resEcho.cols))) 2 none :=
  (C6_theorem resEcho tbl3 [("X", 5)] 2 none (by decide)).1

/-! ### Helper lemmas: positions of the series adjustment -/

theorem getD_set_ne (l : List Rat) (i j : Nat) (a : Rat) (h : i ≠ j) :
    (l.set i a).getD j 0 = l.getD j 0 := by
  rw [List.getD_eq_getElem?_getD, List.getD_eq_getElem?_getD, List.getElem?_set_ne h]

theorem getD_set_self (l : List Rat) (i : Nat) (a : Rat) (h : i < l.length) :
    (l.set i a).getD i 0 = a := by
  rw [List.getD_eq_getElem?_getD, List.getElem?_set_eq_of_lt a h]
  rfl

theorem getD_zipWith_sub (a b : List Rat) (j : Nat) (ha : j < a.length) (hb : j < b.length) :
    (List.zipWith (fun x y => x - y) a b).getD j 0 = a.getD j 0 - b.getD j 0 := by
  have hlen : j < (List.zipWith (fun x y => x - y) a b).length := by
    rw [List.length_zipWith]; omega
  rw [List.getD_eq_getElem?_getD, List.getD_eq_getElem?_getD, List.getD_eq_getElem?_getD,
    List.getElem?_eq_getElem hlen, List.getElem?_eq_getElem ha, List.getElem?_eq_getElem hb,
    List.getElem_zipWith]
  rfl

theorem applyAdjustmentsSeries_vals_length (adjs : List (String × Rat)) :
    ∀ s : Series, (applyAdjustmentsSeries s adjs).vals.length = s.vals.length := by
  induction adjs with
  | nil => intro s; rfl
  | cons p rest ih =>
    intro s
    unfold applyAdjustmentsSeries at *
    rw [List.foldl_cons]
    by_cases hp : p.1 ∈ s.idx
    · rw [if_pos hp, ih _]
      simp [List.length_set]
    · rw [if_neg hp]; exact ih s

theorem applyAdjustmentsSeries_getD_untouched (adjs : List (String × Rat)) (j : Nat) :
    ∀ s : Series, (∀ p ∈ adjs, p.1 ∈ s.idx → s.idx.indexOf p.1 ≠ j) →
      (applyAdjustmentsSeries s adjs).vals.getD j 0 = s.vals.getD j 0 := by
  induction adjs with
  | nil => intro s _; rfl
  | cons p rest ih =>
    intro s h
    unfold applyAdjustmentsSeries at *
    rw [List.foldl_cons]
    by_cases hp : p.1 ∈ s.idx
    · rw [if_pos hp, ih
        { s with vals := s.vals.set (s.idx.indexOf p.1) (s.vals.getD (s.idx.indexOf p.1) 0 + p.2) }
        (fun q hq hq2 => h q (List.mem_cons_of_mem p hq) hq2)]
      exact getD_set_ne _ _ _ _ (h p (List.mem_cons_self p rest) hp)
    · rw [if_neg hp]
      exact ih s (fun q hq hq2 => h q (List.mem_cons_of_mem p hq) hq2)

theorem applyAdjustmentsSeries_getD_key (adjs : List (String × Rat)) (v : String) (d : Rat) :
    ∀ s : Series, (v, d) ∈ adjs → v ∈ s.idx → (adjs.map Prod.fst).Nodup →
      s.vals.length = s.idx.length →
      (applyAdjustmentsSeries s adjs).vals.getD (s.idx.indexOf v) 0 =
        s.vals.getD (s.idx.indexOf v) 0 + d := by
  induction adjs with
  | nil => intro s hmem; exact absurd hmem (by simp)
  | cons p rest ih =>
    intro s hmem hv hnd hlen
    rw [List.map_cons] at hnd
    have hnodup := List.nodup_cons.1 hnd
    unfold applyAdjustmentsSeries at *
    rw [List.foldl_cons]
    rcases List.mem_cons.1 hmem with heq | hmemr
    · have hp1 : p.1 = v := by rw [← heq]
      have hp2 : p.2 = d := by rw [← heq]
      rw [if_pos (hp1 ▸ hv)]
      have hrest : ∀ q ∈ rest, q.1 ∈ s.idx → s.idx.indexOf q.1 ≠ s.idx.indexOf v := by
        intro q hq hqidx hcontra
        have hq1 : q.1 = v := (List.indexOf_inj hqidx hv).1 hcontra
        exact hnodup.1 (hp1 ▸ hq1 ▸ List.mem_map.2 ⟨q, hq, rfl⟩)
      have h1 := applyAdjustmentsSeries_getD_untouched rest (s.idx.indexOf v)
        { s with vals := s.vals.set (s.idx.indexOf p.1) (s.vals.getD (s.idx.indexOf p.1) 0 + p.2) }
        hrest
      unfold applyAdjustmentsSeries at h1
      rw [h1, hp1, hp2]
      exact getD_set_self _ _ _ (by rw [hlen]; exact List.indexOf_lt_length.2 hv)
    · have hp1v : p.1 ≠ v := by
        intro hcontra
        exact hnodup.1 (hcontra ▸ List.mem_map.2 ⟨(v, d), hmemr, rfl⟩)
      by_cases hp : p.1 ∈ s.idx
      · rw [if_pos hp]
        have h1 := ih
          { s with vals := s.vals.set (s.idx.indexOf p.1) (s.vals.getD (s.idx.indexOf p.1) 0 + p.2) }
          hmemr hv hnodup.2 (by simpa [List.length_set] using hlen)
        unfold applyAdjustmentsSeries at h1
        rw [h1]
        have hne : s.idx.indexOf p.1 ≠ s.idx.indexOf v :=
          fun hh => hp1v ((List.indexOf_inj hp hv).1 hh)
        rw [getD_set_ne _ _ _ _ hne]
      · rw [if_neg hp]
        exact ih s hmemr hv hnodup.2 hlen

/-! ### Claim C3 — the differenced-branch adjustment path -/

/-- C3, counterexample: the code computes the net level adjustment as
`(last_level + delta) - data_indexed.iloc[-1]`, subtracting the CURRENT
table's last converted row rather than the snapshot's own stored value.  With
a snapshot storing 10 while the table's last row is 4 and a delta of 1, the
net adjustment is `(10 + 1) - 4 = 7 ≠ 1 = delta`, and the forecast absorbs
the 7 (last difference 2, echo forecast, reconstruction 2 + 7 + 10 = 19,
whereas an adjustment of exactly delta would give 2 + 1 + 10 = 13). -/
theorem C3_counterexample :
    diffAdjustment ⟨["W"], [10]⟩ [("W", 1)]
        ((convert_temperature_to_fahrenheit tbl3).rows.getLastD []) = [7] ∧
      (7 : Rat) ≠ 1 ∧
      simulate_scenario resEcho tbl3 [("W", 1)] 1 (some ⟨["W"], [10]⟩) =
        .ok ⟨[3], ["W"], [[19]]⟩ := by
  have h1 : isCelsiusTempCol "W" = false := by decide
  refine ⟨?_, by norm_num, ?_⟩
  · simp [diffAdjustment, applyAdjustmentsSeries, tbl3, convert_temperature_to_fahrenheit,
      convertRow, h1]
    norm_num
  · simp [simulate_scenario, resEcho, tbl3, convert_temperature_to_fahrenheit, convertRow,
      diffRows, ilocLastNeg, diffAdjustment, applyAdjustmentsSeries, cumsumRows, cumsumRowsAux,
      forecastIndex, h1, List.range_succ]
    norm_num

/-- C3, amended: in the differenced branch, WHEN the supplied snapshot equals
the converted table's last row (as holds for the snapshot produced by
`train_var_model` on the same table), the net level adjustment is exactly
`delta` at each adjusted variable stored in the snapshot and `0` at every
other variable; this one-step difference is added only to the last row of the
lag-order window of differenced rows; and the returned level forecast is the
cumulative sum of the forecast differences added to the snapshot's last-level
values. -/
theorem C3_theorem (m : VARResults) (data : Table) (adjs : List (String × Rat))
    (steps : Nat) (ll : Series) (originalLast : List Rat)
    (hol : (convert_temperature_to_fahrenheit data).rows.getLast? = some originalLast)
    (hidx : ll.idx = (convert_temperature_to_fahrenheit data).cols)
    (hsnap : ll.vals = originalLast)
    (hlen : ll.vals.length = ll.idx.length)
    (hnd : (adjs.map Prod.fst).Nodup) :
    (∀ v d, (v, d) ∈ adjs → v ∈ ll.idx →
      (diffAdjustment ll adjs originalLast).getD (ll.idx.indexOf v) 0 = d) ∧
    (∀ j, j < ll.idx.length → ll.idx.getD j "" ∉ adjs.map Prod.fst →
      (diffAdjustment ll adjs originalLast).getD j 0 = 0) ∧
    (∀ lastRow t,
      (ilocLastNeg m.k_ar
        (diffRows (convert_temperature_to_fahrenheit data).rows)).getLast? = some lastRow →
      data.dateTime.getLast? = some t →
      simulate_scenario m data adjs steps (some ll) =
        .ok ⟨forecastIndex t steps, (convert_temperature_to_fahrenheit data).cols,
          (cumsumRows (m.forecastFn
            ((ilocLastNeg m.k_ar
                (diffRows (convert_temperature_to_fahrenheit data).rows)).dropLast ++
              [List.zipWith (fun a b => a + b) lastRow
                (diffAdjustment ll adjs originalLast)]) steps)).map
            (fun r => List.zipWith (fun a b => a + b) r ll.vals)⟩) := by
  subst hsnap
  refine ⟨?_, ?_, ?_⟩
  · intro v d hmem hv
    have hj : ll.idx.indexOf v < ll.vals.length := by
      rw [hlen]; exact List.indexOf_lt_length.2 hv
    have hlen2 : ll.idx.indexOf v < (applyAdjustmentsSeries ll adjs).vals.length := by
      rw [applyAdjustmentsSeries_vals_length]; exact hj
    unfold diffAdjustment
    rw [getD_zipWith_sub _ _ _ hlen2 hj,
      applyAdjustmentsSeries_getD_key adjs v d ll hmem hv hnd hlen]
    ring
  · intro j hjidx hnotin
    have hj : j < ll.vals.length := by rw [hlen]; exact hjidx
    have hlen2 : j < (applyAdjustmentsSeries ll adjs).vals.length := by
      rw [applyAdjustmentsSeries_vals_length]; exact hj
    unfold diffAdjustment
    rw [getD_zipWith_sub _ _ _ hlen2 hj,
      applyAdjustmentsSeries_getD_untouched adjs j ll ?_]
    · ring
    · intro p hp hpidx hcontra
      apply hnotin
      have : ll.idx.getD j "" = p.1 := by
        rw [← hcontra, List.getD_eq_getElem?_getD,
          List.getElem?_eq_getElem (List.indexOf_lt_length.2 hpidx),
          List.getElem_indexOf (List.indexOf_lt_length.2 hpidx)]
        rfl
      exact this ▸ List.mem_map.2 ⟨p, hp, rfl⟩
  · intro lastRow t hwin ht
    rw [simulate_diff_cases]
    simp only [hol, hwin, ht, applyAdjustmentsSeries_idx, hidx, if_true]

/-- C3, witness: the amended statement at a concrete matching snapshot — the
net adjustment at the adjusted variable is exactly the delta 1. -/
theorem C3_witness :
    (diffAdjustment ⟨["W"], [4]⟩ [("W", 1)] [4]).getD (["W"].indexOf "W") 0 = 1 :=
  (C3_theorem resEcho tbl3 [("W", 1)] 1 ⟨["W"], [4]⟩ [4] rfl rfl rfl rfl
    (by decide)).1 "W" 1 (by simp) (by decide)

/-! ### Helper lemmas: output shape of `simulate_scenario` -/

theorem forecastIndex_length (t : Int) (steps : Nat) :
    (forecastIndex t steps).length = steps := by
  simp [forecastIndex]

theorem cumsumRowsAux_length (l : List (List Rat)) :
    ∀ acc, (cumsumRowsAux acc l).length = l.length := by
  induction l with
  | nil => intro acc; rfl
  | cons r rs ih => intro acc; simp [cumsumRowsAux, ih]

theorem cumsumRows_length (l : List (List Rat)) : (cumsumRows l).length = l.length := by
  cases l with
  | nil => rfl
  | cons r rs => simp [cumsumRows, cumsumRowsAux_length]

theorem cumsumRowsAux_width (C : Nat) (l : List (List Rat)) :
    ∀ acc, acc.length = C → (∀ r ∈ l, r.length = C) →
      ∀ r ∈ cumsumRowsAux acc l, r.length = C := by
  induction l with
  | nil => intro acc _ _ r hr; simp [cumsumRowsAux] at hr
  | cons r0 rs ih =>
    intro acc hacc hl r hr
    simp only [cumsumRowsAux, List.mem_cons] at hr
    have hsum : (List.zipWith (fun a b => a + b) acc r0).length = C := by
      rw [List.length_zipWith, hacc, hl r0 (by simp)]
      omega
    rcases hr with rfl | hr
    · exact hsum
    · exact ih _ hsum (fun q hq => hl q (by simp [hq])) r hr

theorem cumsumRows_width (C : Nat) (l : List (List Rat)) (h : ∀ r ∈ l, r.length = C) :
    ∀ r ∈ cumsumRows l, r.length = C := by
  cases l with
  | nil => intro r hr; simp [cumsumRows] at hr
  | cons r0 rs =>
    intro r hr
    simp only [cumsumRows, List.mem_cons] at hr
    rcases hr with rfl | hr
    · exact h r (by simp)
    · exact cumsumRowsAux_width C rs r0 (h r0 (by simp)) (fun q hq => h q (by simp [hq])) r hr

theorem diffRows_ne_nil_of (l : List (List Rat)) (h : diffRows l ≠ []) : l ≠ [] := by
  intro hc; subst hc; exact h rfl

/-! ### Claim C8 — forecast-table shape in both branches -/

/-- C8: for every horizon (0 included), both branches return a forecast table
whose column set is the fitted model's variable columns (for a model trained
on the converted table) and whose index is exactly `steps` contiguous hourly
timestamps starting one hour after the table's last timestamp; every row has
one entry per column, and `steps = 0` yields the well-formed zero-row table
with that same column set.  The forecasting routine is assumed to honour its
statsmodels shape contract (`steps` rows of one value per variable). -/
theorem C8_theorem (m : VARResults) (data : Table) (adjs : List (String × Rat))
    (steps : Nat) (t : Int)
    (hm : m.cols = (convert_temperature_to_fahrenheit data).cols)
    (hd : data.dateTime.getLast? = some t)
    (hshape : ∀ w s, (m.forecastFn w s).length = s)
    (hwidth : ∀ w s, ∀ r ∈ m.forecastFn w s, r.length = m.cols.length) :
    ((convert_temperature_to_fahrenheit data).rows ≠ [] →
      ∃ F, simulate_scenario m data adjs steps none = .ok F ∧ F.cols = m.cols ∧
        F.dateTime = forecastIndex t steps ∧ F.dateTime.length = steps ∧
        F.rows.length = steps ∧ ∀ r ∈ F.rows, r.length = m.cols.length) ∧
    (∀ ll : Series, ll.idx = (convert_temperature_to_fahrenheit data).cols →
      ll.vals.length = m.cols.length →
      diffRows (convert_temperature_to_fahrenheit data).rows ≠ [] →
      ∃ F, simulate_scenario m data adjs steps (some ll) = .ok F ∧ F.cols = m.cols ∧
        F.dateTime = forecastIndex t steps ∧ F.dateTime.length = steps ∧
        F.rows.length = steps ∧ ∀ r ∈ F.rows, r.length = m.cols.length) := by
  constructor
  · intro hr
    obtain ⟨w', hw', _, _⟩ := applyAdjustmentsLevel_ok
      (convert_temperature_to_fahrenheit data).cols adjs
      (ilocLastNeg m.k_ar (convert_temperature_to_fahrenheit data).rows)
      (ilocLastNeg_ne_nil _ _ hr)
    refine ⟨⟨forecastIndex t steps, (convert_temperature_to_fahrenheit data).cols,
      m.forecastFn w' steps⟩, ?_, hm.symm, rfl, forecastIndex_length t steps,
      hshape w' steps, hwidth w' steps⟩
    rw [simulate_level_cases, hw', hd]
  · intro ll hll hvals hdd
    have hrows : (convert_temperature_to_fahrenheit data).rows ≠ [] :=
      diffRows_ne_nil_of _ hdd
    cases hol : (convert_temperature_to_fahrenheit data).rows.getLast? with
    | none => exact absurd (List.getLast?_eq_none_iff.1 hol) hrows
    | some originalLast =>
      cases hwin : (ilocLastNeg m.k_ar
          (diffRows (convert_temperature_to_fahrenheit data).rows)).getLast? with
      | none =>
        exact absurd (List.getLast?_eq_none_iff.1 hwin) (ilocLastNeg_ne_nil _ _ hdd)
      | some lastRow =>
        have hC : ∀ r ∈ cumsumRows (m.forecastFn
            ((ilocLastNeg m.k_ar
                (diffRows (convert_temperature_to_fahrenheit data).rows)).dropLast ++
              [List.zipWith (fun a b => a + b) lastRow
                (diffAdjustment ll adjs originalLast)]) steps), r.length = m.cols.length :=
          cumsumRows_width _ _ (hwidth _ steps)
        refine ⟨⟨forecastIndex t steps, (convert_temperature_to_fahrenheit data).cols,
          (cumsumRows (m.forecastFn
            ((ilocLastNeg m.k_ar
                (diffRows (convert_temperature_to_fahrenheit data).rows)).dropLast ++
              [List.zipWith (fun a b => a + b) lastRow
                (diffAdjustment ll adjs originalLast)]) steps)).map
            (fun r => List.zipWith (fun a b => a + b) r ll.vals)⟩,
          ?_, hm.symm, rfl, forecastIndex_length t steps, ?_, ?_⟩
        · rw [simulate_diff_cases]
          simp only [hol, hwin, hd, applyAdjustmentsSeries_idx, hll, if_true]
        · rw [List.length_map, cumsumRows_length, hshape]
        · intro r hr
          rcases List.mem_map.1 hr with ⟨r0, hr0, rfl⟩
          rw [List.length_zipWith, hC r0 hr0, hvals]
          omega

/-- C8, witness: the shape facts at a concrete 3-step level-branch call on the
3-row table (and its instance shows the zero-row case is the same statement at
`steps = 0`). -/
theorem C8_witness :
    ∃ F, simulate_scenario resConst tbl3 [] 3 none = .ok F ∧ F.cols = resConst.cols ∧
      F.dateTime = forecastIndex 2 3 ∧ F.dateTime.length = 3 ∧
      F.rows.length = 3 ∧ ∀ r ∈ F.rows, r.length = resConst.cols.length :=
  (C8_theorem resConst tbl3 [] 3 2 (by decide) rfl
    (fun w s => by simp [resConst])
    (fun w s r hr => by
      have := List.eq_of_mem_replicate (by simpa [resConst] using hr)
      simp [this, resConst])).1 (by decide)

/-! ### Claim C9 — insufficiency checks of the single-series forecasters -/

/-- C9: `forecast_arima` raises its insufficient-data `ValueError` exactly
when the series has fewer than 2 observations — before and independently of
any fitting, so for any fitting routine at all — and with 2 or more
observations every error it returns comes from the fitting routine;
`forecast_prophet` behaves the same with "fewer than 2 non-missing values" in
place of the observation count. -/
theorem C9_theorem (data : NTable) (steps : Nat) :
    ((secondColumn data).length < 2 →
      ∀ fitForecast, forecast_arima fitForecast data steps =
        .error (.valueError "Not enough data for ARIMA forecasting")) ∧
    (2 ≤ (secondColumn data).length → data.dateTime.length = data.rows.length →
      ∀ fitForecast e, forecast_arima fitForecast data steps = .error e →
        fitForecast (secondColumn data) steps = .error e) ∧
    (((secondColumn data).filterMap id).length < 2 →
      ∀ fitPredict, forecast_prophet fitPredict data steps =
        .error (.valueError "Not enough non-NaN data for Prophet forecasting")) ∧
    (2 ≤ ((secondColumn data).filterMap id).length →
      ∀ fitPredict e, forecast_prophet fitPredict data steps = .error e →
        fitPredict (List.zip data.dateTime (secondColumn data)) steps = .error e) := by
  refine ⟨?_, ?_, ?_, ?_⟩
  · intro h fitForecast
    unfold forecast_arima
    rw [if_pos h]
  · intro h hlen fitForecast e herr
    unfold forecast_arima at herr
    rw [if_neg (by omega)] at herr
    cases hf : fitForecast (secondColumn data) steps with
    | error e2 => rw [hf] at herr; simp only [Except.error.injEq] at herr; rw [herr]
    | ok fc =>
      rw [hf] at herr
      have hdt : data.dateTime ≠ [] := by
        intro hc
        have h2 : (secondColumn data).length = data.rows.length := by
          simp [secondColumn]
        rw [hc] at hlen
        simp only [List.length_nil] at hlen
        omega
      cases ht : data.dateTime.getLast? with
      | none => exact absurd (List.getLast?_eq_none_iff.1 ht) hdt
      | some t => rw [ht] at herr; exact absurd herr (by simp)
  · intro h fitPredict
    unfold forecast_prophet
    rw [if_pos h]
  · intro h fitPredict e herr
    unfold forecast_prophet at herr
    rw [if_neg (by omega)] at herr
    cases hf : fitPredict (List.zip data.dateTime (secondColumn data)) steps with
    | error e2 => rw [hf] at herr; simp only [Except.error.injEq] at herr; rw [herr]
    | ok fc => rw [hf] at herr; exact absurd herr (by simp)

/-- C9, witness: on a one-observation table the ARIMA forecaster raises the
insufficiency error whatever the (never consulted) fitting routine does. -/
theorem C9_witness :
    forecast_arima (fun _ _ => .ok []) ntbl1 5 =
      .error (.valueError "Not enough data for ARIMA forecasting") :=
  (C9_theorem ntbl1 5).1 (by decide) (fun _ _ => .ok [])

end SimuLad
